import Mathlib

/-!
Shallow embedding of the sketch-surface core of `src/app/page.tsx` (EditPic).

The raster buffer is modelled as a list of committed drawing commands, in the
order they were stroked; `getImageData` returns the buffer (an immutable copy),
`putImageData` replaces the buffer wholesale, and `clearRect` over the whole
canvas empties it.  Pointer coordinates are integers.  The React pieces are
embedded as pure state transformers over `CanvasState`:

* `handlePointerDown` — page.tsx lines 150-177 (the two `getImageData` calls
  become `captureOk` / `previewCaptureOk` flags: `false` means the call threw;
  the first is inside a try/catch, the second is not, so on its failure the
  handler aborts with `snapshot` left unchanged);
* `handlePointerMove` — lines 179-223;
* `finalizeDrawing` — lines 225-279 (pointerup/leave/cancel all call it);
* `handleClear` — lines 317-338;
* `handleUndo` — lines 340-357;
* `resize` — lines 92-116 (reassigning `canvas.width`/`canvas.height` wipes
  the bitmap, then `historyRef.current = []` and `setCanUndo(false)`).
-/

namespace EditPic

/-- A pointer position in logical canvas coordinates. -/
structure Pt where
  x : Int
  y : Int
deriving DecidableEq, Repr

/-- The tool selector `selectedTool` of page.tsx line 18. -/
inductive Tool where
  | freehand
  | line
  | rectangle
  | circle
deriving DecidableEq, Repr

/-- Squared Euclidean distance; `Math.hypot(point.x-startPoint.x, point.y-startPoint.y)`
is positive exactly when this is positive. -/
def radius2 (a b : Pt) : Int :=
  (b.x - a.x) ^ 2 + (b.y - a.y) ^ 2

/-- One committed stroke operation on the canvas bitmap. -/
inductive DrawCmd where
  | seg (a b : Pt)
  | lineShape (a b : Pt)
  | rectShape (a b : Pt)
  | circleShape (c : Pt) (r2 : Int)
deriving DecidableEq, Repr

/-- The canvas bitmap, as the list of stroke commands committed to it. -/
abbrev Buffer := List DrawCmd

/-- An element of `historyRef.current`: `{ imageData, hasSketch }` (page.tsx line 19). -/
structure UndoEntry where
  imageData : Buffer
  hasSketch : Bool
deriving DecidableEq, Repr

/-- The mutable state of the drawing feature: canvas dimensions, bitmap,
`historyRef.current`, the `canUndo` and `hasSketch` React state, and the
closure-local `drawing`, `pointer`, `startPoint`, `snapshot` of lines 137-140. -/
structure CanvasState where
  width : Int
  height : Int
  buffer : Buffer
  history : List UndoEntry
  canUndo : Bool
  hasSketch : Bool
  drawing : Bool
  pointer : Pt
  startPoint : Pt
  snapshot : Option Buffer
deriving DecidableEq, Repr

/-- The shared undo-push block of `handlePointerDown` (lines 161-164) and
`handleClear` (lines 326-329): `push` the entry, then `shift()` the oldest
when the length exceeds 20. -/
def pushSnapshot (history : List UndoEntry) (e : UndoEntry) : List UndoEntry :=
  let h := history ++ [e]
  if h.length > 20 then h.tail else h

/-- The per-tool `switch` of `handlePointerMove` (lines 201-222); the circle
preview has no radius guard. -/
def previewShape (tool : Tool) (s p : Pt) : List DrawCmd :=
  match tool with
  | .freehand => []
  | .line => [.lineShape s p]
  | .rectangle => [.rectShape s p]
  | .circle => [.circleShape s (radius2 s p)]

/-- The per-tool `switch` of `finalizeDrawing` (lines 250-273); the circle arc
is drawn only when `radius > 0` (line 266). -/
def finalShape (tool : Tool) (s p : Pt) : List DrawCmd :=
  match tool with
  | .freehand => []
  | .line => [.lineShape s p]
  | .rectangle => [.rectShape s p]
  | .circle => if radius2 s p > 0 then [.circleShape s (radius2 s p)] else []

/-- Handler `handlePointerDown` (lines 150-177).  `captureOk = false` means the
`getImageData` inside the try block threw (the push is skipped, caught);
`previewCaptureOk = false` means the second, unguarded `getImageData` of
line 175 threw, aborting the handler with `snapshot` unchanged. -/
def handlePointerDown (tool : Tool) (p : Pt) (captureOk previewCaptureOk : Bool)
    (s : CanvasState) : CanvasState :=
  let s1 := { s with drawing := true, pointer := p, startPoint := p }
  let s2 :=
    if captureOk then
      let h := pushSnapshot s1.history ⟨s1.buffer, s1.hasSketch⟩
      { s1 with history := h, canUndo := h.length > 0 }
    else s1
  match tool with
  | .freehand => { s2 with snapshot := none }
  | _ => if previewCaptureOk then { s2 with snapshot := some s2.buffer } else s2

/-- Handler `handlePointerMove` (lines 179-223). -/
def handlePointerMove (tool : Tool) (s : CanvasState) (p : Pt) : CanvasState :=
  if s.drawing = false then s
  else
    let prev := s.pointer
    let s1 := { s with pointer := p }
    match tool with
    | .freehand =>
        { s1 with buffer := s1.buffer ++ [.seg prev p], hasSketch := true }
    | _ =>
        match s1.snapshot with
        | none => s1
        | some snap => { s1 with buffer := snap ++ previewShape tool s1.startPoint p }

/-- Handler `finalizeDrawing` (lines 225-279), invoked by pointerup, pointerleave and
pointercancel; `event = some p` when the event carried a position. -/
def finalizeDrawing (tool : Tool) (s : CanvasState) (event : Option Pt) : CanvasState :=
  if s.drawing = false then s
  else
    let s1 := { s with drawing := false }
    let s2 :=
      match event with
      | some p => { s1 with pointer := p }
      | none => s1
    match tool with
    | .freehand => { s2 with hasSketch := true }
    | _ =>
        match s2.snapshot with
        | none => s2
        | some snap =>
            let s3 := { s2 with
              buffer := snap ++ finalShape tool s2.startPoint s2.pointer,
              snapshot := none }
            if s3.pointer ≠ s3.startPoint then { s3 with hasSketch := true } else s3

/-- Command `handleClear` (lines 317-338): try to push a snapshot, then
`clearRect` the whole canvas and `setHasSketch(false)`. -/
def handleClear (captureOk : Bool) (s : CanvasState) : CanvasState :=
  let s1 :=
    if captureOk then
      let h := pushSnapshot s.history ⟨s.buffer, s.hasSketch⟩
      { s with history := h, canUndo := h.length > 0 }
    else s
  { s1 with buffer := [], hasSketch := false }

/-- Command `handleUndo` (lines 340-357): `pop()` the most recent entry; if none,
only `setCanUndo(false)`; otherwise `putImageData` it and restore `hasSketch`. -/
def handleUndo (s : CanvasState) : CanvasState :=
  match s.history.getLast? with
  | none => { s with canUndo := false }
  | some prev =>
      let h := s.history.dropLast
      { s with history := h, buffer := prev.imageData,
               hasSketch := prev.hasSketch, canUndo := h.length > 0 }

/-- Handler `resize` (lines 92-116): reallocate the bitmap at `logical × dpr`
(reassigning `canvas.width` wipes the pixels), reset transform and style,
then clear `historyRef` and `canUndo`.  No dimension validation is performed
and `hasSketch` is not touched. -/
def resize (w h dpr : Int) (s : CanvasState) : CanvasState :=
  { s with width := w * dpr, height := h * dpr, buffer := [],
           history := [], canUndo := false }

/-- A sequence of pointermove events. -/
def runMoves (tool : Tool) (s : CanvasState) (ms : List Pt) : CanvasState :=
  ms.foldl (handlePointerMove tool) s

/-- The state right after mount/first resize: empty canvas, empty history. -/
def initState (w h dpr : Int) : CanvasState :=
  { width := w * dpr, height := h * dpr, buffer := [], history := [],
    canUndo := false, hasSketch := false, drawing := false,
    pointer := ⟨0, 0⟩, startPoint := ⟨0, 0⟩, snapshot := none }

/-- A state reached by an actual freehand gesture (down, move, up) from the
initial state: `hasSketch = true` and one undo entry. -/
def drawnState : CanvasState :=
  finalizeDrawing Tool.freehand
    (handlePointerMove Tool.freehand
      (handlePointerDown Tool.freehand ⟨0, 0⟩ true true (initState 100 100 1)) ⟨1, 1⟩)
    (some ⟨1, 1⟩)

/-- A state in the middle of a gesture: pointerdown has fired, no pointerup yet. -/
def midGesture : CanvasState :=
  handlePointerDown Tool.freehand ⟨0, 0⟩ true true (initState 100 100 1)

/-- A family of pairwise distinct undo entries. -/
def entryK (k : Int) : UndoEntry :=
  ⟨[DrawCmd.seg ⟨k, 0⟩ ⟨k, 0⟩], false⟩

/-- Twenty-one distinct undo entries, pushed in order in the C1 witness. -/
def pushList21 : List UndoEntry :=
  (List.range 21).map (fun k => entryK (Int.ofNat k))

/-! ### Helper lemmas -/

/-- A single `pushSnapshot` on a list of at most 20 entries drops exactly the
entries beyond the capacity from the front. -/
lemma pushSnapshot_eq_drop (h : List UndoEntry) (e : UndoEntry) (hh : h.length ≤ 20) :
    pushSnapshot h e = (h ++ [e]).drop (h.length + 1 - 20) := by
  unfold pushSnapshot
  simp only [List.length_append, List.length_cons, List.length_nil]
  split
  · rename_i hgt
    have h20 : h.length = 20 := by omega
    have : h.length + 1 - 20 = 1 := by omega
    rw [this]
    cases h with
    | nil => simp at h20
    | cons a t => simp
  · rename_i hle
    have : h.length + 1 - 20 = 0 := by omega
    rw [this]
    simp

lemma pushSnapshot_length_le (h : List UndoEntry) (e : UndoEntry) (hh : h.length ≤ 20) :
    (pushSnapshot h e).length ≤ 20 := by
  rw [pushSnapshot_eq_drop h e hh, List.length_drop]
  simp only [List.length_append, List.length_cons, List.length_nil]
  omega

/-- Folding pushes over a bounded history keeps only the newest 20 entries. -/
lemma foldl_pushSnapshot_eq_drop (es : List UndoEntry) :
    ∀ h : List UndoEntry, h.length ≤ 20 →
      es.foldl pushSnapshot h = (h ++ es).drop (h.length + es.length - 20) := by
  induction es with
  | nil =>
      intro h hh
      have h0 : h.length - 20 = 0 := by omega
      simp [h0]
  | cons e es ih =>
      intro h hh
      have hlen : (pushSnapshot h e).length ≤ 20 :=
        pushSnapshot_length_le h e hh
      rw [List.foldl_cons, ih (pushSnapshot h e) hlen,
          pushSnapshot_eq_drop h e hh]
      simp only [List.length_drop, List.length_append, List.length_cons,
        List.length_nil]
      have hd : h.length + 1 - 20 ≤ (h ++ [e]).length := by
        simp; omega
      rw [← List.drop_append_of_le_length hd, List.drop_drop]
      have hl : (h ++ [e]) ++ es = h ++ e :: es := by simp
      rw [hl]
      congr 1
      omega

/-- The newest entry is always the last element of a pushed history. -/
lemma pushSnapshot_getLast (h : List UndoEntry) (e : UndoEntry) :
    (pushSnapshot h e).getLast? = some e := by
  simp only [pushSnapshot]
  split
  · rename_i hgt
    cases h with
    | nil => simp at hgt
    | cons a t => simp
  · simp

/-- Pointerdown with a shaped tool and a successful preview capture: the
resulting closure state, field by field. -/
lemma handlePointerDown_shaped_fields (tool : Tool) (htool : tool ≠ Tool.freehand)
    (p : Pt) (c1 : Bool) (s : CanvasState) :
    (handlePointerDown tool p c1 true s).snapshot = some s.buffer ∧
    (handlePointerDown tool p c1 true s).startPoint = p ∧
    (handlePointerDown tool p c1 true s).drawing = true ∧
    (handlePointerDown tool p c1 true s).hasSketch = s.hasSketch ∧
    (handlePointerDown tool p c1 true s).buffer = s.buffer := by
  cases tool with
  | freehand => exact absurd rfl htool
  | line => cases c1 <;> simp [handlePointerDown]
  | rectangle => cases c1 <;> simp [handlePointerDown]
  | circle => cases c1 <;> simp [handlePointerDown]

/-- Pointerdown with a shaped tool whose preview capture throws: `snapshot`
keeps its previous value, the buffer is untouched. -/
lemma handlePointerDown_shaped_failed_fields (tool : Tool) (htool : tool ≠ Tool.freehand)
    (p : Pt) (c1 : Bool) (s : CanvasState) :
    (handlePointerDown tool p c1 false s).snapshot = s.snapshot ∧
    (handlePointerDown tool p c1 false s).buffer = s.buffer := by
  cases tool with
  | freehand => exact absurd rfl htool
  | line => cases c1 <;> simp [handlePointerDown]
  | rectangle => cases c1 <;> simp [handlePointerDown]
  | circle => cases c1 <;> simp [handlePointerDown]

/-- With a successful undo capture, pointerdown pushes exactly one entry
holding the pre-gesture buffer and `hasSketch`. -/
lemma handlePointerDown_history (tool : Tool) (p : Pt) (c2 : Bool) (s : CanvasState) :
    (handlePointerDown tool p true c2 s).history
      = pushSnapshot s.history ⟨s.buffer, s.hasSketch⟩ := by
  cases tool <;> cases c2 <;> simp [handlePointerDown]

/-- A pointermove with a shaped tool touches only `pointer` and `buffer`. -/
lemma handlePointerMove_shaped_inv (tool : Tool) (htool : tool ≠ Tool.freehand)
    (st : CanvasState) (p : Pt) :
    (handlePointerMove tool st p).snapshot = st.snapshot ∧
    (handlePointerMove tool st p).startPoint = st.startPoint ∧
    (handlePointerMove tool st p).drawing = st.drawing ∧
    (handlePointerMove tool st p).hasSketch = st.hasSketch := by
  cases tool with
  | freehand => exact absurd rfl htool
  | line =>
      cases hdraw : st.drawing <;> cases hsnap : st.snapshot <;>
        simp [handlePointerMove, hdraw, hsnap]
  | rectangle =>
      cases hdraw : st.drawing <;> cases hsnap : st.snapshot <;>
        simp [handlePointerMove, hdraw, hsnap]
  | circle =>
      cases hdraw : st.drawing <;> cases hsnap : st.snapshot <;>
        simp [handlePointerMove, hdraw, hsnap]

/-- A later shaped-tool pointermove fully overwrites the effect of an earlier
one: the preview is redrawn from the same snapshot. -/
lemma handlePointerMove_absorb (tool : Tool) (htool : tool ≠ Tool.freehand)
    (st : CanvasState) (m q : Pt) :
    handlePointerMove tool (handlePointerMove tool st m) q
      = handlePointerMove tool st q := by
  cases tool with
  | freehand => exact absurd rfl htool
  | line =>
      cases hdraw : st.drawing <;> cases hsnap : st.snapshot <;>
        simp [handlePointerMove, hdraw, hsnap]
  | rectangle =>
      cases hdraw : st.drawing <;> cases hsnap : st.snapshot <;>
        simp [handlePointerMove, hdraw, hsnap]
  | circle =>
      cases hdraw : st.drawing <;> cases hsnap : st.snapshot <;>
        simp [handlePointerMove, hdraw, hsnap]

/-- For shaped tools, a run of pointermoves collapses to the single move at
the last position. -/
lemma runMoves_eq_last (tool : Tool) (htool : tool ≠ Tool.freehand) :
    ∀ (ms : List Pt) (q : Pt) (st : CanvasState), ms.getLast? = some q →
      runMoves tool st ms = handlePointerMove tool st q := by
  intro ms
  induction ms with
  | nil => intro q st h; simp at h
  | cons m ms ih =>
      intro q st h
      cases ms with
      | nil =>
          simp at h
          subst h
          simp [runMoves]
      | cons m2 ms2 =>
          have h2 : (m2 :: ms2).getLast? = some q := by
            rw [← h]; simp
          have hstep : runMoves tool st (m :: m2 :: ms2)
              = runMoves tool (handlePointerMove tool st m) (m2 :: ms2) := rfl
          rw [hstep, ih q (handlePointerMove tool st m) h2,
              handlePointerMove_absorb tool htool]

/-- A run of shaped-tool pointermoves touches only `pointer` and `buffer`. -/
lemma runMoves_shaped_inv (tool : Tool) (htool : tool ≠ Tool.freehand) :
    ∀ (ms : List Pt) (st : CanvasState),
      (runMoves tool st ms).snapshot = st.snapshot ∧
      (runMoves tool st ms).startPoint = st.startPoint ∧
      (runMoves tool st ms).drawing = st.drawing ∧
      (runMoves tool st ms).hasSketch = st.hasSketch := by
  intro ms
  induction ms with
  | nil => intro st; simp [runMoves]
  | cons m ms ih =>
      intro st
      have h1 := handlePointerMove_shaped_inv tool htool st m
      have h2 := ih (handlePointerMove tool st m)
      simp only [runMoves, List.foldl_cons] at *
      exact ⟨h2.1.trans h1.1, h2.2.1.trans h1.2.1,
             h2.2.2.1.trans h1.2.2.1, h2.2.2.2.trans h1.2.2.2⟩

/-- Without a preview snapshot, a shaped-tool pointermove never draws. -/
lemma handlePointerMove_buffer_of_none (tool : Tool) (htool : tool ≠ Tool.freehand)
    (st : CanvasState) (p : Pt) (hsnap : st.snapshot = none) :
    (handlePointerMove tool st p).buffer = st.buffer := by
  cases tool with
  | freehand => exact absurd rfl htool
  | line => cases hdraw : st.drawing <;> simp [handlePointerMove, hdraw, hsnap]
  | rectangle => cases hdraw : st.drawing <;> simp [handlePointerMove, hdraw, hsnap]
  | circle => cases hdraw : st.drawing <;> simp [handlePointerMove, hdraw, hsnap]

/-- Without a preview snapshot, a whole run of shaped-tool moves never draws. -/
lemma runMoves_buffer_of_none (tool : Tool) (htool : tool ≠ Tool.freehand) :
    ∀ (ms : List Pt) (st : CanvasState), st.snapshot = none →
      (runMoves tool st ms).buffer = st.buffer := by
  intro ms
  induction ms with
  | nil => intro st _; simp [runMoves]
  | cons m ms ih =>
      intro st hsnap
      have h1 := handlePointerMove_buffer_of_none tool htool st m hsnap
      have h2 := (handlePointerMove_shaped_inv tool htool st m).1.trans hsnap
      simp only [runMoves, List.foldl_cons] at *
      exact (ih (handlePointerMove tool st m) h2).trans h1

/-- Without a preview snapshot, shaped-tool finalize never draws either. -/
lemma finalizeDrawing_buffer_of_none (tool : Tool) (htool : tool ≠ Tool.freehand)
    (st : CanvasState) (ev : Option Pt) (hsnap : st.snapshot = none) :
    (finalizeDrawing tool st ev).buffer = st.buffer := by
  cases tool with
  | freehand => exact absurd rfl htool
  | line =>
      cases hdraw : st.drawing <;> cases ev <;>
        simp [finalizeDrawing, hdraw, hsnap]
  | rectangle =>
      cases hdraw : st.drawing <;> cases ev <;>
        simp [finalizeDrawing, hdraw, hsnap]
  | circle =>
      cases hdraw : st.drawing <;> cases ev <;>
        simp [finalizeDrawing, hdraw, hsnap]

/-- Shaped-tool finalize at a carried position: the buffer is redrawn from
the snapshot plus the final shape, and `hasSketch` is set only when the
pointer moved away from the start. -/
lemma finalizeDrawing_shaped_some (tool : Tool) (htool : tool ≠ Tool.freehand)
    (st : CanvasState) (q : Pt) (snap : Buffer)
    (hdraw : st.drawing = true) (hsnap : st.snapshot = some snap) :
    (finalizeDrawing tool st (some q)).buffer = snap ++ finalShape tool st.startPoint q ∧
    (finalizeDrawing tool st (some q)).hasSketch
      = (if q ≠ st.startPoint then true else st.hasSketch) := by
  cases tool with
  | freehand => exact absurd rfl htool
  | line =>
      constructor <;> simp [finalizeDrawing, hdraw, hsnap] <;> split <;> simp_all
  | rectangle =>
      constructor <;> simp [finalizeDrawing, hdraw, hsnap] <;> split <;> simp_all
  | circle =>
      constructor <;> simp [finalizeDrawing, hdraw, hsnap] <;> split <;> simp_all

/-- The circle radius is zero exactly at the start point. -/
lemma radius2_self (p : Pt) : radius2 p p = 0 := by
  simp [radius2]

/-! ### Claims -/

/-- C1: for every sequence of undo-store pushes, the history length is always
at most 20; once 21 or more entries have been pushed, the history is exactly
the last 20 pushes, so the first-pushed entry has been evicted FIFO-style and
no sequence of undo pops can retrieve it. -/
theorem undo_store_bounded_fifo (es : List UndoEntry) :
    (es.foldl pushSnapshot []).length ≤ 20 ∧
      (21 ≤ es.length → es.foldl pushSnapshot [] = es.drop (es.length - 20)) := by
  have h := foldl_pushSnapshot_eq_drop es [] (by simp)
  simp only [List.nil_append, List.length_nil, Nat.zero_add] at h
  constructor
  · rw [h, List.length_drop]; omega
  · intro _; exact h

/-- Witness for C1 at 21 concretely pushed entries. -/
theorem undo_store_bounded_fifo_witness :
    21 ≤ pushList21.length ∧
      pushList21.foldl pushSnapshot [] = pushList21.drop (pushList21.length - 20) :=
  ⟨by decide, (undo_store_bounded_fifo pushList21).2 (by decide)⟩

/-- C2: when the undo history is non-empty, `handleUndo` overwrites the buffer
with the snapshot of the most recently pushed entry, bit-identically, and sets
`hasSketch` to the boolean stored in that entry (restored, not recomputed). -/
theorem undo_restores_last_entry (s : CanvasState) (e : UndoEntry)
    (h : s.history.getLast? = some e) :
    (handleUndo s).buffer = e.imageData ∧ (handleUndo s).hasSketch = e.hasSketch := by
  simp [handleUndo, h]

/-- Witness for C2 on a state with one concrete undo entry. -/
theorem undo_restores_last_entry_witness :
    drawnState.history.getLast? = some ⟨[], false⟩ ∧
      (handleUndo drawnState).buffer = (⟨[], false⟩ : UndoEntry).imageData ∧
      (handleUndo drawnState).hasSketch = (⟨[], false⟩ : UndoEntry).hasSketch :=
  ⟨by decide,
    (undo_restores_last_entry drawnState ⟨[], false⟩ (by decide)).1,
    (undo_restores_last_entry drawnState ⟨[], false⟩ (by decide)).2⟩

/-- C3: for a shaped tool, pointerdown at `p0`, any number ≥ 1 of pointermoves
whose last position is `q1`, then pointerup at `q1`, leaves the same buffer as
pointerdown at `p0`, a single pointermove to `q1`, and pointerup at `q1`. -/
theorem shaped_preview_idempotent (tool : Tool) (s : CanvasState)
    (p0 q1 : Pt) (ms : List Pt) (c1 c2 : Bool)
    (htool : tool ≠ Tool.freehand) (hlast : ms.getLast? = some q1) :
    (finalizeDrawing tool (runMoves tool (handlePointerDown tool p0 c1 c2 s) ms)
        (some q1)).buffer
      = (finalizeDrawing tool
          (runMoves tool (handlePointerDown tool p0 c1 c2 s) [q1]) (some q1)).buffer := by
  rw [runMoves_eq_last tool htool ms q1 _ hlast,
      runMoves_eq_last tool htool [q1] q1 _ (by simp)]

/-- Witness for C3: the line tool with two moves versus one move. -/
theorem shaped_preview_idempotent_witness :
    Tool.line ≠ Tool.freehand ∧
      ([⟨1, 1⟩, ⟨2, 2⟩] : List Pt).getLast? = some ⟨2, 2⟩ ∧
      (finalizeDrawing Tool.line (runMoves Tool.line
          (handlePointerDown Tool.line ⟨0, 0⟩ true true (initState 100 100 1))
          [⟨1, 1⟩, ⟨2, 2⟩]) (some ⟨2, 2⟩)).buffer
        = (finalizeDrawing Tool.line (runMoves Tool.line
            (handlePointerDown Tool.line ⟨0, 0⟩ true true (initState 100 100 1))
            [⟨2, 2⟩]) (some ⟨2, 2⟩)).buffer :=
  ⟨by decide, by decide,
    shaped_preview_idempotent Tool.line (initState 100 100 1) ⟨0, 0⟩ ⟨2, 2⟩
      [⟨1, 1⟩, ⟨2, 2⟩] true true (by decide) (by decide)⟩

/-- C4 counterexample: after a real freehand gesture (`hasSketch = true`), a
resize leaves `hasSketch` still true — the claim that resize resets
`hasContent` to false fails on the code, which never touches it. -/
theorem resize_does_not_reset_hasSketch_cex :
    drawnState.hasSketch = true ∧
      ¬ ((resize 100 100 1 drawnState).hasSketch = false) := by
  decide

/-- C4 amended: after every resize the undo store is empty and `canUndo` is
false, but `hasSketch` keeps its previous value (the code never resets it). -/
theorem resize_clears_undo_keeps_hasSketch (s : CanvasState) (w h dpr : Int) :
    (resize w h dpr s).history = [] ∧ (resize w h dpr s).canUndo = false ∧
      (resize w h dpr s).hasSketch = s.hasSketch :=
  ⟨rfl, rfl, rfl⟩

/-- C5 counterexample: while a gesture is active, a second pointerdown moves
the start point and pushes a new undo entry — it is not ignored. -/
theorem second_pointerdown_not_ignored_cex :
    midGesture.drawing = true ∧
      (handlePointerDown Tool.freehand ⟨5, 5⟩ true true midGesture).startPoint
        ≠ midGesture.startPoint ∧
      (handlePointerDown Tool.freehand ⟨5, 5⟩ true true midGesture).history.length
        = midGesture.history.length + 1 := by
  decide

/-- C5 amended: a second pointerdown while already Drawing restarts the
gesture in place: the handler has no `drawing` guard, so it overwrites the
start point with the new position and (when the capture succeeds) pushes
another undo entry. -/
theorem second_pointerdown_restarts_gesture (tool : Tool) (s : CanvasState)
    (p : Pt) (c2 : Bool) (hdraw : s.drawing = true) :
    (handlePointerDown tool p true c2 s).drawing = true ∧
    (handlePointerDown tool p true c2 s).startPoint = p ∧
    (handlePointerDown tool p true c2 s).history
      = pushSnapshot s.history ⟨s.buffer, s.hasSketch⟩ := by
  refine ⟨?_, ?_, handlePointerDown_history tool p c2 s⟩ <;>
    cases tool <;> cases c2 <;> simp [handlePointerDown]

/-- Witness for C5 amended on a concrete mid-gesture state. -/
theorem second_pointerdown_restarts_gesture_witness :
    midGesture.drawing = true ∧
      ((handlePointerDown Tool.line ⟨5, 5⟩ true true midGesture).drawing = true ∧
       (handlePointerDown Tool.line ⟨5, 5⟩ true true midGesture).startPoint = ⟨5, 5⟩ ∧
       (handlePointerDown Tool.line ⟨5, 5⟩ true true midGesture).history
         = pushSnapshot midGesture.history ⟨midGesture.buffer, midGesture.hasSketch⟩) :=
  ⟨by decide,
    second_pointerdown_restarts_gesture Tool.line midGesture ⟨5, 5⟩ true (by decide)⟩

/-- C6 counterexample: a resize to zero dimensions is not ignored — the undo
store is cleared rather than retained (the code performs no validation and
raises no ResizeError). -/
theorem resize_zero_dims_not_ignored_cex :
    drawnState.history ≠ [] ∧ (resize 0 0 1 drawnState).history = [] := by
  decide

/-- C6 amended: a resize with zero dimensions is processed like any other:
the buffer is reallocated (wiped) at the zero size and the undo store and
`canUndo` are cleared; nothing is retained and no error path exists. -/
theorem resize_invalid_dims_no_validation (s : CanvasState) (w h dpr : Int)
    (hinvalid : w = 0 ∨ h = 0) :
    (resize w h dpr s).buffer = [] ∧ (resize w h dpr s).history = [] ∧
      (resize w h dpr s).canUndo = false ∧
      (resize w h dpr s).width = w * dpr ∧ (resize w h dpr s).height = h * dpr :=
  ⟨rfl, rfl, rfl, rfl, rfl⟩

/-- Witness for C6 amended at width 0. -/
theorem resize_invalid_dims_no_validation_witness :
    ((0 : Int) = 0 ∨ (0 : Int) = 0) ∧
      ((resize 0 0 1 drawnState).buffer = [] ∧
       (resize 0 0 1 drawnState).history = [] ∧
       (resize 0 0 1 drawnState).canUndo = false ∧
       (resize 0 0 1 drawnState).width = 0 * 1 ∧
       (resize 0 0 1 drawnState).height = 0 * 1) :=
  ⟨Or.inl rfl, resize_invalid_dims_no_validation drawnState 0 0 1 (Or.inl rfl)⟩

/-- C7 counterexample: line tool, preview capture fails at pointerdown, then a
move to (5,5) and pointerup there: the buffer stays empty — the line is never
drawn, so there is no destructive fallback. -/
theorem preview_capture_failure_draws_nothing_cex :
    (finalizeDrawing Tool.line
        (handlePointerMove Tool.line
          (handlePointerDown Tool.line ⟨0, 0⟩ true false (initState 100 100 1)) ⟨5, 5⟩)
        (some ⟨5, 5⟩)).buffer = [] ∧
      ([] : Buffer) ≠ [DrawCmd.lineShape ⟨0, 0⟩ ⟨5, 5⟩] := by
  decide

/-- C7 amended: when the preview capture at pointerdown throws with a shaped
tool (and no stale snapshot is lying around), `snapshot` stays `none`, so every
subsequent pointermove and the finalize return before drawing: the gesture
leaves the buffer unchanged instead of falling back to destructive drawing. -/
theorem preview_capture_failure_no_fallback (tool : Tool) (s : CanvasState)
    (p : Pt) (c1 : Bool) (ms : List Pt) (ev : Option Pt)
    (htool : tool ≠ Tool.freehand) (hsnap : s.snapshot = none) :
    (finalizeDrawing tool
        (runMoves tool (handlePointerDown tool p c1 false s) ms) ev).buffer
      = s.buffer := by
  obtain ⟨hd1, hd2⟩ := handlePointerDown_shaped_failed_fields tool htool p c1 s
  have hsn1 : (handlePointerDown tool p c1 false s).snapshot = none := hd1.trans hsnap
  have hm := runMoves_buffer_of_none tool htool ms _ hsn1
  have hsn2 : (runMoves tool (handlePointerDown tool p c1 false s) ms).snapshot
      = none := ((runMoves_shaped_inv tool htool ms _).1).trans hsn1
  rw [finalizeDrawing_buffer_of_none tool htool _ ev hsn2, hm, hd2]

/-- Witness for C7 amended: line tool from the initial state. -/
theorem preview_capture_failure_no_fallback_witness :
    Tool.line ≠ Tool.freehand ∧ (initState 100 100 1).snapshot = none ∧
      (finalizeDrawing Tool.line
          (runMoves Tool.line (handlePointerDown Tool.line ⟨0, 0⟩ true false
            (initState 100 100 1)) [⟨5, 5⟩]) (some ⟨5, 5⟩)).buffer
        = (initState 100 100 1).buffer :=
  ⟨by decide, by decide,
    preview_capture_failure_no_fallback Tool.line (initState 100 100 1) ⟨0, 0⟩ true
      [⟨5, 5⟩] (some ⟨5, 5⟩) (by decide) (by decide)⟩

/-- C8: `handleClear` with a successful capture first pushes the current
buffer with the current `hasSketch` (under the shared capacity-20 eviction
rule `pushSnapshot`), then clears the buffer and resets `hasSketch`; an
immediately following `handleUndo` restores the pre-clear buffer and the
pre-clear `hasSketch`. -/
theorem clear_is_undoable (s : CanvasState) :
    (handleClear true s).history = pushSnapshot s.history ⟨s.buffer, s.hasSketch⟩ ∧
    (handleClear true s).buffer = [] ∧
    (handleClear true s).hasSketch = false ∧
    (handleUndo (handleClear true s)).buffer = s.buffer ∧
    (handleUndo (handleClear true s)).hasSketch = s.hasSketch := by
  have hh : (handleClear true s).history
      = pushSnapshot s.history ⟨s.buffer, s.hasSketch⟩ := by
    simp [handleClear]
  have hl : (handleClear true s).history.getLast? = some ⟨s.buffer, s.hasSketch⟩ := by
    rw [hh]; exact pushSnapshot_getLast _ _
  refine ⟨hh, by simp [handleClear], by simp [handleClear], ?_, ?_⟩
  · simp [handleUndo, hl]
  · simp [handleUndo, hl]

/-- C9: a completed circle gesture whose pointerup lands back on the start
point draws nothing: the buffer equals the pre-gesture buffer (the radius-0
arc is skipped and the preview is erased by the final snapshot restore) and
`hasSketch` is not set by the gesture. -/
theorem circle_zero_radius_draws_nothing (s : CanvasState) (p : Pt)
    (c1 : Bool) (ms : List Pt) :
    (finalizeDrawing Tool.circle
        (runMoves Tool.circle (handlePointerDown Tool.circle p c1 true s) ms)
        (some p)).buffer = s.buffer ∧
    (finalizeDrawing Tool.circle
        (runMoves Tool.circle (handlePointerDown Tool.circle p c1 true s) ms)
        (some p)).hasSketch = s.hasSketch := by
  have htool : Tool.circle ≠ Tool.freehand := by decide
  obtain ⟨hsn, hsp, hdr, hhs, hbuf⟩ :=
    handlePointerDown_shaped_fields Tool.circle htool p c1 s
  obtain ⟨msn, msp, mdr, mhs⟩ :=
    runMoves_shaped_inv Tool.circle htool ms (handlePointerDown Tool.circle p c1 true s)
  have hdr2 := mdr.trans hdr
  have hsn2 := msn.trans hsn
  have hsp2 := msp.trans hsp
  have hhs2 := mhs.trans hhs
  obtain ⟨hb, hs2⟩ := finalizeDrawing_shaped_some Tool.circle htool
    (runMoves Tool.circle (handlePointerDown Tool.circle p c1 true s) ms)
    p s.buffer hdr2 hsn2
  constructor
  · rw [hb, hsp2]
    simp [finalShape, radius2_self]
  · rw [hs2, hsp2]
    simp [hhs2]

/-- C10: undoing with an empty history changes neither the buffer nor
`hasSketch`; it only sets `canUndo` to false, and the history stays empty. -/
theorem undo_on_empty_history_noop (s : CanvasState) (h : s.history = []) :
    (handleUndo s).buffer = s.buffer ∧ (handleUndo s).hasSketch = s.hasSketch ∧
      (handleUndo s).canUndo = false ∧ (handleUndo s).history = [] := by
  simp [handleUndo, h]

/-- Witness for C10 on the freshly initialized state. -/
theorem undo_on_empty_history_noop_witness :
    (initState 100 100 1).history = [] ∧
      ((handleUndo (initState 100 100 1)).buffer = (initState 100 100 1).buffer ∧
       (handleUndo (initState 100 100 1)).hasSketch = (initState 100 100 1).hasSketch ∧
       (handleUndo (initState 100 100 1)).canUndo = false ∧
       (handleUndo (initState 100 100 1)).history = []) :=
  ⟨rfl, undo_on_empty_history_noop (initState 100 100 1) rfl⟩

end EditPic
